import Mathlib

/-!
Shallow embedding of `src/FreesoundSpeedControl.user.js` (a userscript adding
playback-speed controls and a reverse-playback engine to audio players).
The repository holds two near-identical revisions of the script; where they
differ in behaviour both are embedded (suffix `V1` for the first revision,
`V2` for the second).  JavaScript numbers are modelled exactly over `ℚ`,
with the non-finite values `NaN` and `±Infinity` made explicit by `JsNum`.
-/

namespace FS

/-- A JavaScript number as produced by `parseFloat`: either a finite value
(modelled exactly as a rational) or one of the non-finite values. -/
inductive JsNum where
  | nan : JsNum
  | posInf : JsNum
  | negInf : JsNum
  | finite : ℚ → JsNum
deriving DecidableEq, Repr

/-- `Number.isFinite`. -/
def JsNum.isFinite : JsNum → Bool
  | .finite _ => true
  | _ => false

/-- `Math.max(a, v)` for a finite left argument `a` (JS semantics:
`NaN` absorbs, `+Infinity` wins, `-Infinity` loses). -/
def jsMax (a : ℚ) : JsNum → JsNum
  | .nan => .nan
  | .posInf => .posInf
  | .negInf => .finite a
  | .finite q => .finite (max a q)

/-- `Math.min(b, v)` for a finite left argument `b`. -/
def jsMin (b : ℚ) : JsNum → JsNum
  | .nan => .nan
  | .posInf => .finite b
  | .negInf => .negInf
  | .finite q => .finite (min b q)

/-- `MIN_RATE = 0.1` from the source. -/
def MIN_RATE : ℚ := 1 / 10

/-- `MAX_RATE = 16` from the source. -/
def MAX_RATE : ℚ := 16

/-- `const clamp = (v, min, max) => Math.min(max, Math.max(min, v))`,
at the only min/max the script uses, on a general `JsNum`. -/
def clampJs (v : JsNum) : JsNum := jsMin MAX_RATE (jsMax MIN_RATE v)

/-- The same `clamp` restricted to finite values. -/
def clampQ (v : ℚ) : ℚ := min MAX_RATE (max MIN_RATE v)

/-- `const SPEEDS = [.25, .5, 1, 2, 3, 4, 8, 12, 16]`. -/
def SPEEDS : List ℚ := [1/4, 1/2, 1, 2, 3, 4, 8, 12, 16]

/-- `x || y` on a rational (JS: `0` is falsy, every other number truthy). -/
def jsOrQ (x y : ℚ) : ℚ := if x = 0 then y else x

/-- Outcome of a rate-set operation: the rate applied to the transport
(`audio.playbackRate`, clamped inside `applyRate`) and the value persisted
by `saveRate`. -/
structure RateOutcome where
  applied : ℚ
  persisted : ℚ
deriving DecidableEq, Repr

/-- Revision 1 `setRate`: `const rate = clamp(v); applyRate(rate); saveRate(rate)`
where `applyRate` clamps its argument again before assigning the transport. -/
def setRateV1 (v : ℚ) : RateOutcome :=
  let rate := clampQ v
  { applied := clampQ rate, persisted := rate }

/-- Revision 2 `setRate`: `applyRate(v); saveRate(v)` — the raw argument is
persisted; only `applyRate` clamps. -/
def setRateV2 (v : ℚ) : RateOutcome :=
  { applied := clampQ v, persisted := v }

/-- `handleInputEvent` (identical in both revisions up to which `setRate` it
calls): `const val = clamp(parseFloat(input.value || 'NaN')); if
(Number.isFinite(val)) setRate(val)`.  The argument is the `parseFloat`
result; `none` means the handler fell through without calling `setRate`
(no transport change, no persistence write, no UI update). -/
def handleInputEvent (setRate : ℚ → RateOutcome) (parsed : JsNum) :
    Option RateOutcome :=
  match clampJs parsed with
  | .finite q => some (setRate q)
  | _ => none

/-- A local rate-set request: a click on one of the nine speed buttons
(`SPEEDS.map(makeButton)`), or a numeric-input event carrying the
`parseFloat` of the field's value. -/
inductive RateRequest where
  | button : Fin 9 → RateRequest
  | numeric : JsNum → RateRequest

/-- The rate the user requested: the button's speed, or the parsed numeric
value when it is finite (`none` when the input is not a valid number). -/
def RateRequest.requested : RateRequest → Option ℚ
  | .button i => some (SPEEDS.get ⟨i, by simp [SPEEDS]⟩)
  | .numeric (.finite q) => some q
  | .numeric _ => none

/-- What revision 1 does with a rate-set request. -/
def requestOutcomeV1 : RateRequest → Option RateOutcome
  | .button i => some (setRateV1 (SPEEDS.get ⟨i, by simp [SPEEDS]⟩))
  | .numeric v => handleInputEvent setRateV1 v

/-- What revision 2 does with a rate-set request. -/
def requestOutcomeV2 : RateRequest → Option RateOutcome
  | .button i => some (setRateV2 (SPEEDS.get ⟨i, by simp [SPEEDS]⟩))
  | .numeric v => handleInputEvent setRateV2 v

/-- `loadRate`: `parseFloat(localStorage.getItem(KEY) || '1')`, clamped when
finite, defaulting to `1` otherwise.  `none` models an absent (or empty)
stored value, whose falsy read makes `parseFloat` see the string `'1'`. -/
def loadRate (stored : Option JsNum) : ℚ :=
  let v : JsNum := match stored with
    | none => .finite 1
    | some n => n
  match v with
  | .finite q => clampQ q
  | _ => 1

/-- Truncation toward zero, as JavaScript division underlying `%` uses. -/
def jsTrunc (x : ℚ) : ℤ := if 0 ≤ x then ⌊x⌋ else ⌈x⌉

/-- The JavaScript remainder operator `x % d`: same sign as the dividend,
`x - d * trunc(x / d)`. -/
def jsRem (x d : ℚ) : ℚ := x - d * jsTrunc (x / d)

/-- The looping branch of the `step` position function:
`cycleTime = (reverseStartOffset - elapsed) % reverseDuration;
T = cycleTime <= 0 ? cycleTime + reverseDuration : cycleTime`. -/
def loopPosition (startOffset elapsed duration : ℚ) : ℚ :=
  let cycleTime := jsRem (startOffset - elapsed) duration
  if cycleTime ≤ 0 then cycleTime + duration else cycleTime

/-- The non-looping branch of the `step` position function:
`T = Math.max(0, reverseStartOffset - elapsed)`. -/
def nonLoopPosition (startOffset elapsed : ℚ) : ℚ :=
  max 0 (startOffset - elapsed)

/-! ### Event model of the reverse-playback engine

The reverse toggle's click handler is `async`: on a cache miss it suspends at
the `fetch`/`decodeAudioData` awaits and resumes in a later event-loop turn.
`EngineState` carries the handler's closure variables together with
observables needed by the claims: the list of `AudioBufferSourceNode`s that
have been `start`ed and not yet `stop`ped, and a call counter on the
fetch+decode capability. -/

structure EngineState where
  /-- The `reverseSource` closure variable: id of the currently tracked
  buffer source, `none` when null. -/
  reverseSource : Option Nat
  /-- Ids of buffer sources that were started and never stopped (live
  renderers audible to the user). -/
  liveSources : List Nat
  /-- The `reverseRAF` closure variable: pending animation-frame callback. -/
  raf : Option Nat
  /-- Whether `player.__tmReverseBuffer` holds a cached reversed buffer. -/
  bufferCached : Bool
  /-- Number of invocations of the fetch+decode capability. -/
  decodeCount : Nat
  /-- Suspended toggle-on continuations awaiting their decode result. -/
  pendingDecodes : Nat
  /-- Fresh-id counter for buffer sources. -/
  nextId : Nat
deriving DecidableEq, Repr

/-- The engine state at `enhancePlayer` time: no source, no cache. -/
def initEngine : EngineState :=
  { reverseSource := none, liveSources := [], raf := none,
    bufferCached := false, decodeCount := 0, pendingDecodes := 0, nextId := 0 }

/-- `stopReverse`: stop and drop the tracked source (if any) and cancel the
pending animation frame.  (Time-commit effects are modelled separately in
`RevTiming`; they do not touch these fields.) -/
def stopReverse (st : EngineState) : EngineState :=
  let live := match st.reverseSource with
    | some i => st.liveSources.erase i
    | none => st.liveSources
  { st with reverseSource := none, liveSources := live, raf := none }

/-- The tail of the toggle-on handler after the reversed buffer is available:
create a buffer source, `start` it, track it in `reverseSource`, and schedule
the per-frame `step` callback.  Note the source performs no teardown here. -/
def startSession (st : EngineState) : EngineState :=
  { st with reverseSource := some st.nextId,
            liveSources := st.nextId :: st.liveSources,
            raf := some st.nextId,
            nextId := st.nextId + 1 }

/-- The observable events driving one instance's engine. -/
inductive Ev where
  /-- A click on the reverse toggle button. -/
  | click : Ev
  /-- A terminating event: forward `play` or a stop button, each of whose
  listeners call `stopReverse()`. -/
  | stop : Ev
  /-- Completion of one suspended continuation's fetch+decode awaits. -/
  | decodeDone : Ev

/-- One step of the engine.  `click` with a tracked source is toggle-off
(`stopReverse(true); audio.play()`, whose `play` event fires `stopReverse()`
again).  `click` with no tracked source is toggle-on: `audio.pause();
stopReverse();` then, if the buffer is cached, the session starts in the same
synchronous turn; otherwise the handler invokes fetch+decode and suspends.
`decodeDone` resumes one suspended continuation, which stores the decode
result in the cache and then starts a session — with no re-check of any
intervening stop and no teardown of any session started meanwhile. -/
def engineStep (st : EngineState) : Ev → EngineState
  | .click =>
    match st.reverseSource with
    | some _ => stopReverse (stopReverse st)
    | none =>
      let st1 := stopReverse st
      if st1.bufferCached then startSession st1
      else { st1 with decodeCount := st1.decodeCount + 1,
                      pendingDecodes := st1.pendingDecodes + 1 }
  | .stop => stopReverse st
  | .decodeDone =>
    match st.pendingDecodes with
    | 0 => st
    | n + 1 => startSession { st with pendingDecodes := n, bufferCached := true }

/-- Run the engine over a list of events. -/
def engineRun (st : EngineState) (evs : List Ev) : EngineState :=
  evs.foldl engineStep st

/-! ### Broadcast (apply-to-all) and per-instance initialization -/

/-- One player on the page, as the broadcast loop sees it: its identity, its
transport rate, and whether it exposes the `__tmApplyRate` hook. -/
structure Player where
  pid : Nat
  rate : ℚ
  hasHook : Bool
deriving DecidableEq, Repr

/-- `applyRate` run against a player: installs the `__tmApplyRate` hook,
clamps, assigns the transport rate, and syncs the UI. -/
def applyRateTo (r : ℚ) (p : Player) : Player :=
  { p with rate := clampQ r, hasHook := true }

/-- Page-wide rate state: the `GLOBAL_RATE` session override, the
`localStorage` slot, and the players found by `querySelectorAll`. -/
structure PageState where
  globalRate : Option ℚ
  storage : Option JsNum
  players : List Player
deriving DecidableEq, Repr

/-- The apply-to-all click handler: `rate = audio.playbackRate || 1;
GLOBAL_RATE = rate; saveRate(rate);` then for every other player, call its
`__tmApplyRate` hook when present, else assign `a.playbackRate = rate`
directly. -/
def broadcast (st : PageState) (src : Player) : PageState :=
  let r := jsOrQ src.rate 1
  { globalRate := some r,
    storage := some (.finite r),
    players := st.players.map fun p =>
      if p.pid = src.pid then p
      else if p.hasHook then applyRateTo r p
      else { p with rate := r } }

/-- Revision 1 per-player setup: `const initRate = (GLOBAL_RATE !== null ?
GLOBAL_RATE : loadRate()); applyRate(initRate)` — note the `loadRate()`
call re-reads storage at enhancement time. -/
def initNewPlayerV1 (st : PageState) (pid : Nat) : Player :=
  let initRate := match st.globalRate with
    | some g => g
    | none => loadRate st.storage
  applyRateTo initRate { pid := pid, rate := 1, hasHook := false }

/-- Revision 2 `getEffectiveRate()`: `GLOBAL_RATE !== null ? GLOBAL_RATE :
INITIAL_RATE`. -/
def getEffectiveRate (globalRate : Option ℚ) (initialRate : ℚ) : ℚ :=
  match globalRate with
  | some g => g
  | none => initialRate

/-! ### Storage-read accounting across the two revisions -/

/-- Revision 1 process state: storage, session override, a counter of
`loadRate` storage reads, and the rates applied at each player setup. -/
structure Proc1 where
  storage : Option JsNum
  globalRate : Option ℚ
  readCount : Nat
  rates : List ℚ
deriving DecidableEq, Repr

/-- Revision 1 startup: the script body declares `GLOBAL_RATE = null` and
reads nothing from storage. -/
def startupV1 (stor : Option JsNum) : Proc1 :=
  { storage := stor, globalRate := none, readCount := 0, rates := [] }

/-- Revision 1 `enhancePlayer` tail: when `GLOBAL_RATE` is unset the setup
calls `loadRate()` — a fresh storage read — before `applyRate`. -/
def enhanceV1 (st : Proc1) : Proc1 :=
  match st.globalRate with
  | some g => { st with rates := clampQ g :: st.rates }
  | none => { st with readCount := st.readCount + 1,
                      rates := clampQ (loadRate st.storage) :: st.rates }

/-- Revision 2 process state: adds `INITIAL_RATE`, fixed at startup. -/
structure Proc2 where
  storage : Option JsNum
  initialRate : ℚ
  globalRate : Option ℚ
  readCount : Nat
  rates : List ℚ
deriving DecidableEq, Repr

/-- Revision 2 startup: `const INITIAL_RATE = loadRate()` — exactly one
storage read, at script start. -/
def startupV2 (stor : Option JsNum) : Proc2 :=
  { storage := stor, initialRate := loadRate stor, globalRate := none,
    readCount := 1, rates := [] }

/-- Revision 2 `enhancePlayer` tail: `applyRate(getEffectiveRate())` —
no storage access. -/
def enhanceV2 (st : Proc2) : Proc2 :=
  { st with rates := clampQ (getEffectiveRate st.globalRate st.initialRate) :: st.rates }

/-- Iterate revision 2 player setups. -/
def enhancesV2 : Nat → Proc2 → Proc2
  | 0, st => st
  | n + 1, st => enhancesV2 n (enhanceV2 st)

/-! ### Reverse-session timing (toggle-on anchor and toggle-off commit) -/

/-- The timing closure variables set by a successful toggle-on. -/
structure RevTiming where
  reverseStartOffset : ℚ
  reverseStartCtxTime : ℚ
  reverseDuration : ℚ
deriving DecidableEq, Repr

/-- Toggle-on timing: `reverseDuration = decoded.duration;
reverseStartOffset = audio.currentTime > 0 ? audio.currentTime :
reverseDuration; reverseStartCtxTime = reverseCtx.currentTime`. -/
def toggleOnTiming (currentTime duration ctxNow : ℚ) : RevTiming :=
  { reverseStartOffset := if 0 < currentTime then currentTime else duration,
    reverseStartCtxTime := ctxNow,
    reverseDuration := duration }

/-- The `commitTime` branch of `stopReverse(true)` (taken when
`reverseDuration > 0`): `elapsed = (reverseCtx.currentTime -
reverseStartCtxTime) * (audio.playbackRate || 1); audio.currentTime =
Math.max(0, reverseStartOffset - elapsed)`.  Returns the committed forward
position. -/
def commitPosition (t : RevTiming) (ctxNow rate : ℚ) : ℚ :=
  let elapsed := (ctxNow - t.reverseStartCtxTime) * jsOrQ rate 1
  max 0 (t.reverseStartOffset - elapsed)

/-! ### Basic facts about `clamp`, `jsOrQ` and the JS remainder -/

theorem clampQ_le_max (v : ℚ) : clampQ v ≤ MAX_RATE :=
  min_le_left _ _

theorem min_le_clampQ (v : ℚ) : MIN_RATE ≤ clampQ v := by
  refine le_min ?_ (le_max_left _ _)
  norm_num [MIN_RATE, MAX_RATE]

theorem clampQ_eq_self {v : ℚ} (h1 : MIN_RATE ≤ v) (h2 : v ≤ MAX_RATE) :
    clampQ v = v := by
  rw [clampQ, max_eq_right h1, min_eq_right h2]

theorem clampQ_idem (v : ℚ) : clampQ (clampQ v) = clampQ v :=
  clampQ_eq_self (min_le_clampQ v) (clampQ_le_max v)

theorem jsOrQ_of_ne {x : ℚ} (y : ℚ) (h : x ≠ 0) : jsOrQ x y = x :=
  if_neg h

theorem setRateV1_eq (v : ℚ) : setRateV1 v = ⟨clampQ v, clampQ v⟩ := by
  simp [setRateV1, clampQ_idem]

theorem handleInputEvent_finite (s : ℚ → RateOutcome) (q : ℚ) :
    handleInputEvent s (.finite q) = some (s (clampQ q)) := by
  simp [handleInputEvent, clampJs, jsMin, jsMax, clampQ]

/-- The JS remainder by a positive divisor lies strictly between `-d` and
`d` (it carries the dividend's sign, so both signs occur). -/
theorem jsRem_bounds (x d : ℚ) (hd : 0 < d) : -d < jsRem x d ∧ jsRem x d < d := by
  have hd0 : d ≠ 0 := ne_of_gt hd
  have hx : d * (x / d) = x := mul_div_cancel₀ x hd0
  unfold jsRem jsTrunc
  by_cases h : 0 ≤ x / d
  · rw [if_pos h]
    have h1 : (⌊x / d⌋ : ℚ) ≤ x / d := Int.floor_le _
    have h2 : x / d < ⌊x / d⌋ + 1 := Int.lt_floor_add_one _
    constructor <;> nlinarith
  · rw [if_neg h]
    have h1 : x / d ≤ (⌈x / d⌉ : ℚ) := Int.le_ceil _
    have h2 : (⌈x / d⌉ : ℚ) < x / d + 1 := Int.ceil_lt_add_one _
    constructor <;> nlinarith

/-! ### Claim theorems -/

/-- C1: for every rate `r` requested through the local rate-set operation —
a speed-button click or a numeric-input event whose value parses to a finite
number — both revisions apply `clamp(r, 0.1, 16)` to the transport and
persist that same clamped value as the new default. -/
theorem localRate_applied_persisted_clamped (req : RateRequest) (r : ℚ)
    (h : req.requested = some r) :
    requestOutcomeV1 req = some ⟨clampQ r, clampQ r⟩ ∧
    requestOutcomeV2 req = some ⟨clampQ r, clampQ r⟩ := by
  cases req with
  | button i =>
    fin_cases i <;>
      simp only [RateRequest.requested, SPEEDS, List.get, Option.some_inj] at h <;>
      subst h <;>
      exact ⟨by norm_num [requestOutcomeV1, SPEEDS, List.get, setRateV1, clampQ,
                MIN_RATE, MAX_RATE],
             by norm_num [requestOutcomeV2, SPEEDS, List.get, setRateV2, clampQ,
                MIN_RATE, MAX_RATE]⟩
  | numeric v =>
    cases v with
    | finite q =>
      have hq : q = r := by simpa [RateRequest.requested] using h
      subst hq
      constructor
      · rw [requestOutcomeV1, handleInputEvent_finite, setRateV1_eq, clampQ_idem]
      · rw [requestOutcomeV2, handleInputEvent_finite]
        simp [setRateV2, clampQ_idem]
    | nan => simp [RateRequest.requested] at h
    | posInf => simp [RateRequest.requested] at h
    | negInf => simp [RateRequest.requested] at h

/-- C1 witness: the numeric input `20` is a valid request for rate 20; both
revisions apply and persist `clamp(20) = 16`. -/
theorem localRate_applied_persisted_clamped_witness :
    (RateRequest.numeric (JsNum.finite 20)).requested = some 20 ∧
    (requestOutcomeV1 (RateRequest.numeric (JsNum.finite 20)) =
        some ⟨clampQ 20, clampQ 20⟩ ∧
      requestOutcomeV2 (RateRequest.numeric (JsNum.finite 20)) =
        some ⟨clampQ 20, clampQ 20⟩) :=
  ⟨rfl, localRate_applied_persisted_clamped (RateRequest.numeric (JsNum.finite 20)) 20 rfl⟩

/-- C2 counterexample: at duration `D = 1`, start offset `s = 1` and elapsed
`e = 0` (all satisfying the claim's side conditions `e ≥ 0`, `D > 0`,
`s ∈ [0, D]`), the looping position function returns exactly `1 = D`:
`(1 - 0) % 1 = 0 ≤ 0`, so the code yields `0 + 1`.  The result is not in the
half-open interval `[0, D)` as the claim states. -/
theorem loopPosition_at_duration_cex :
    (0:ℚ) ≤ 0 ∧ (0:ℚ) < 1 ∧ (0:ℚ) ≤ 1 ∧ (1:ℚ) ≤ 1 ∧
      ¬ (loopPosition 1 0 1 < 1) := by
  have h : loopPosition 1 0 1 = 1 := by
    norm_num [loopPosition, jsRem, jsTrunc]
  refine ⟨le_refl _, by norm_num, by norm_num, le_refl _, ?_⟩
  rw [h]
  exact lt_irrefl 1

/-- C2 amended: during looping reverse playback, for every elapsed `e ≥ 0`,
duration `D > 0` and start offset `s ∈ [0, D]`, the position computed by the
position function lies in the half-open interval `(0, D]` (the boundary value
`D` is attained; `0` never is). -/
theorem loopPosition_mem_Ioc (s e D : ℚ) (he : 0 ≤ e) (hD : 0 < D)
    (hs0 : 0 ≤ s) (hsD : s ≤ D) :
    0 < loopPosition s e D ∧ loopPosition s e D ≤ D := by
  obtain ⟨hgt, hlt⟩ := jsRem_bounds (s - e) D hD
  simp only [loopPosition]
  by_cases hc : jsRem (s - e) D ≤ 0
  · rw [if_pos hc]
    constructor <;> linarith
  · rw [if_neg hc]
    push_neg at hc
    constructor <;> linarith

/-- C2 amended witness: at `s = 1/2`, `e = 0`, `D = 1` the looping position
is strictly positive and at most the duration. -/
theorem loopPosition_mem_Ioc_witness :
    (0:ℚ) ≤ 0 ∧ (0:ℚ) < 1 ∧ (0:ℚ) ≤ 1/2 ∧ (1:ℚ)/2 ≤ 1 ∧
      (0 < loopPosition (1/2) 0 1 ∧ loopPosition (1/2) 0 1 ≤ 1) :=
  ⟨le_refl _, by norm_num, by norm_num, by norm_num,
    loopPosition_mem_Ioc (1/2) 0 1 (le_refl _) (by norm_num) (by norm_num) (by norm_num)⟩

/-- C9 counterexample: an input whose value parses to `+Infinity` (a number
input accepts the text `1e999`, and `parseFloat('1e999')` is `Infinity`,
a non-finite value) is not ignored: the handler clamps it to `16` before the
finiteness check, so the transport rate is set to 16 and a persistence write
occurs. -/
theorem nonFinite_input_applied_cex :
    handleInputEvent setRateV1 JsNum.posInf = some ⟨16, 16⟩ ∧
      handleInputEvent setRateV1 JsNum.posInf ≠ none := by
  have h : handleInputEvent setRateV1 JsNum.posInf = some (setRateV1 MAX_RATE) := by
    simp [handleInputEvent, clampJs, jsMin, jsMax]
  constructor
  · rw [h, setRateV1_eq]
    norm_num [clampQ, MIN_RATE, MAX_RATE]
  · rw [h]
    simp

/-- C9 amended: input parsing to `NaN` (e.g. the literal text `abc`, which a
number input exposes as the empty value, parsed as `NaN`) is ignored in both
revisions — no transport change, no persistence write, no UI change; input
parsing to a finite number outside `[0.1, 16]` is clamped, never rejected;
input parsing to `-Infinity` / `+Infinity` is clamped to the range bound
(`0.1` / `16`) and applied rather than ignored. -/
theorem malformed_input_handling (q : ℚ) :
    handleInputEvent setRateV1 JsNum.nan = none ∧
    handleInputEvent setRateV2 JsNum.nan = none ∧
    handleInputEvent setRateV1 (JsNum.finite q) = some ⟨clampQ q, clampQ q⟩ ∧
    handleInputEvent setRateV2 (JsNum.finite q) = some ⟨clampQ q, clampQ q⟩ ∧
    handleInputEvent setRateV1 JsNum.negInf = some ⟨MIN_RATE, MIN_RATE⟩ ∧
    handleInputEvent setRateV2 JsNum.posInf = some ⟨MAX_RATE, MAX_RATE⟩ := by
  have hmin : clampQ MIN_RATE = MIN_RATE :=
    clampQ_eq_self (le_refl _) (by norm_num [MIN_RATE, MAX_RATE])
  have hmax : clampQ MAX_RATE = MAX_RATE :=
    clampQ_eq_self (by norm_num [MIN_RATE, MAX_RATE]) (le_refl _)
  refine ⟨rfl, rfl, ?_, ?_, ?_, ?_⟩
  · rw [handleInputEvent_finite, setRateV1_eq, clampQ_idem]
  · rw [handleInputEvent_finite]
    simp [setRateV2, clampQ_idem]
  · have h : handleInputEvent setRateV1 JsNum.negInf =
        some (setRateV1 (min MAX_RATE MIN_RATE)) := by
      simp [handleInputEvent, clampJs, jsMin, jsMax]
    have hm : min MAX_RATE MIN_RATE = MIN_RATE := by
      norm_num [MIN_RATE, MAX_RATE]
    rw [h, hm, setRateV1_eq, hmin]
  · have h : handleInputEvent setRateV2 JsNum.posInf = some (setRateV2 MAX_RATE) := by
      simp [handleInputEvent, clampJs, jsMin, jsMax]
    rw [h]
    simp [setRateV2, hmax]

/-- C10: for every stored persistence value parsing to a finite number `q`,
`loadRate` returns `clamp(q, 0.1, 16)`, which always lies within
`[0.1, 16]`; in particular a stored `100` loads as `16` and a stored `0.01`
loads as `0.1`. -/
theorem loadRate_clamps_finite (q : ℚ) :
    loadRate (some (JsNum.finite q)) = clampQ q ∧
    MIN_RATE ≤ loadRate (some (JsNum.finite q)) ∧
    loadRate (some (JsNum.finite q)) ≤ MAX_RATE ∧
    loadRate (some (JsNum.finite 100)) = 16 ∧
    loadRate (some (JsNum.finite (1/100))) = MIN_RATE := by
  refine ⟨rfl, min_le_clampQ q, clampQ_le_max q, ?_, ?_⟩
  · show clampQ 100 = 16
    norm_num [clampQ, MIN_RATE, MAX_RATE]
  · show clampQ (1/100) = MIN_RATE
    norm_num [clampQ, MIN_RATE, MAX_RATE]

/-- C3: the code violates the supersession requirement.  Failing input: a
reverse toggle-on with an empty cache, then a terminating stop event while
the decode awaits are pending, then decode completion.  The resumed
continuation caches the decode result (as the claim requires) but also
creates and starts a buffer source and schedules the per-frame callback —
it performs no re-check after the awaits — so a render session is live even
though the session-start was superseded by the stop. -/
theorem decode_after_stop_starts_session :
    (engineRun initEngine [Ev.click, Ev.stop, Ev.decodeDone]).bufferCached = true ∧
    (engineRun initEngine [Ev.click, Ev.stop, Ev.decodeDone]).reverseSource = some 0 ∧
    (engineRun initEngine [Ev.click, Ev.stop, Ev.decodeDone]).liveSources = [0] ∧
    (engineRun initEngine [Ev.click, Ev.stop, Ev.decodeDone]).raf = some 0 := by
  decide

/-- C4: the code violates the at-most-one-session invariant when two
toggle-on requests overlap.  Failing input: two clicks on the reverse button
before the first decode completes, then the two decode completions.  Each
resumed continuation starts its own buffer source without tearing down the
other's, so two sources are live at once, and only the second is tracked by
`reverseSource` — the first can no longer be stopped by `stopReverse`. -/
theorem overlapping_toggles_two_live_sessions :
    (engineRun initEngine [Ev.click, Ev.click, Ev.decodeDone, Ev.decodeDone]).liveSources
        = [1, 0] ∧
    (engineRun initEngine [Ev.click, Ev.click, Ev.decodeDone, Ev.decodeDone]).liveSources.length
        = 2 ∧
    (engineRun initEngine [Ev.click, Ev.click, Ev.decodeDone, Ev.decodeDone]).reverseSource
        = some 1 := by
  decide

/-- C5: the code violates the decode-at-most-once invariant.  Failing input:
two clicks on the reverse button before the first decode completes.  Both
handler invocations observe an empty `player.__tmReverseBuffer` cache and
each invokes the fetch+decode capability, so the expensive decode+reverse
runs twice on one instance — contradicting the source's own comment that the
PCM is reversed once and cached per player. -/
theorem overlapping_toggles_double_decode :
    (engineRun initEngine [Ev.click, Ev.click]).decodeCount = 2 ∧
    ¬ ((engineRun initEngine [Ev.click, Ev.click]).decodeCount ≤ 1) := by
  decide

/-- C6: the apply-to-all action reads the source player's current rate, sets
it as the session override, persists it, and applies it to every other
player (through its `__tmApplyRate` hook when present, else by direct
transport assignment); a player initialized afterward starts at the override
rate regardless of what storage then holds (revision 1
`initNewPlayerV1`, and revision 2 `getEffectiveRate` for any
`INITIAL_RATE`). -/
theorem broadcast_rate_propagation (st : PageState) (src : Player)
    (pid : Nat) (stor : Option JsNum) (ir : ℚ)
    (h1 : MIN_RATE ≤ src.rate) (h2 : src.rate ≤ MAX_RATE) :
    (broadcast st src).globalRate = some src.rate ∧
    (broadcast st src).storage = some (JsNum.finite src.rate) ∧
    (broadcast st src).players.map Player.rate =
      st.players.map (fun p => if p.pid = src.pid then p.rate else src.rate) ∧
    (initNewPlayerV1 { broadcast st src with storage := stor } pid).rate = src.rate ∧
    clampQ (getEffectiveRate (broadcast st src).globalRate ir) = src.rate := by
  have hne : src.rate ≠ 0 := by
    have : (0:ℚ) < MIN_RATE := by norm_num [MIN_RATE]
    exact ne_of_gt (lt_of_lt_of_le this h1)
  have hr : jsOrQ src.rate 1 = src.rate := if_neg hne
  have hclamp : clampQ src.rate = src.rate := clampQ_eq_self h1 h2
  refine ⟨?_, ?_, ?_, ?_, ?_⟩
  · simp [broadcast, hr]
  · simp [broadcast, hr]
  · simp only [broadcast, hr, List.map_map]
    refine List.map_congr_left ?_
    intro p _
    by_cases hp : p.pid = src.pid
    · simp [hp, Function.comp]
    · by_cases hh : p.hasHook <;>
        simp [hp, hh, applyRateTo, hclamp, Function.comp]
  · simp [initNewPlayerV1, broadcast, hr, applyRateTo, hclamp]
  · simp [broadcast, hr, getEffectiveRate, hclamp]

/-- C6 witness: the spec's scenario — player A (id 0) at rate 1 broadcasts;
players B (id 1, rate 1) and C (id 2, rate 2) both end at rate 1; storage
holds 1; a player enhanced afterward (id 3) starts at 1 even with storage
since overwritten to 5, and under revision 2 with any `INITIAL_RATE` (7). -/
theorem broadcast_rate_propagation_witness :
    MIN_RATE ≤ (1:ℚ) ∧ (1:ℚ) ≤ MAX_RATE ∧
    ((broadcast ⟨none, none, [⟨0, 1, true⟩, ⟨1, 1, true⟩, ⟨2, 2, true⟩]⟩
        ⟨0, 1, true⟩).globalRate = some 1 ∧
     (broadcast ⟨none, none, [⟨0, 1, true⟩, ⟨1, 1, true⟩, ⟨2, 2, true⟩]⟩
        ⟨0, 1, true⟩).storage = some (JsNum.finite 1) ∧
     (broadcast ⟨none, none, [⟨0, 1, true⟩, ⟨1, 1, true⟩, ⟨2, 2, true⟩]⟩
        ⟨0, 1, true⟩).players.map Player.rate =
       ([⟨0, 1, true⟩, ⟨1, 1, true⟩, ⟨2, 2, true⟩] : List Player).map
         (fun p => if p.pid = 0 then p.rate else 1) ∧
     (initNewPlayerV1
        { broadcast ⟨none, none, [⟨0, 1, true⟩, ⟨1, 1, true⟩, ⟨2, 2, true⟩]⟩
            ⟨0, 1, true⟩ with storage := some (JsNum.finite 5) } 3).rate = 1 ∧
     clampQ (getEffectiveRate
        (broadcast ⟨none, none, [⟨0, 1, true⟩, ⟨1, 1, true⟩, ⟨2, 2, true⟩]⟩
            ⟨0, 1, true⟩).globalRate 7) = 1) :=
  ⟨by norm_num [MIN_RATE], by norm_num [MAX_RATE],
    broadcast_rate_propagation
      ⟨none, none, [⟨0, 1, true⟩, ⟨1, 1, true⟩, ⟨2, 2, true⟩]⟩
      ⟨0, 1, true⟩ 3 (some (JsNum.finite 5)) 7
      (by norm_num [MIN_RATE]) (by norm_num [MAX_RATE])⟩

/-- Player setups in revision 2 never touch the startup-read fields. -/
theorem enhancesV2_preserves (n : Nat) (st : Proc2) :
    (enhancesV2 n st).readCount = st.readCount ∧
    (enhancesV2 n st).initialRate = st.initialRate ∧
    (enhancesV2 n st).globalRate = st.globalRate := by
  induction n generalizing st with
  | zero => exact ⟨rfl, rfl, rfl⟩
  | succ n ih =>
    have h := ih (enhanceV2 st)
    simpa [enhancesV2, enhanceV2] using h

/-- C7 counterexample: in revision 1 the script body performs no storage
read at startup (`readCount = 0` after `startupV1`), and each of two player
setups with no session override re-reads storage, giving two reads in total
— not one read at process start. -/
theorem rev1_reads_storage_per_enhance_cex :
    (startupV1 (some (JsNum.finite 2))).readCount = 0 ∧
    (enhanceV1 (enhanceV1 (startupV1 (some (JsNum.finite 2))))).readCount = 2 ∧
    ¬ ((enhanceV1 (enhanceV1 (startupV1 (some (JsNum.finite 2))))).readCount = 1) := by
  refine ⟨rfl, ?_, ?_⟩ <;> simp [enhanceV1, startupV1]

/-- C7 amended: in revision 2 the persisted rate is read exactly once at
process start (`INITIAL_RATE = loadRate()`), yielding 1 when the stored
value is absent or unparseable, and any number of later player setups
neither re-read storage nor change the startup value; in revision 1,
however, every player setup that runs with no session override performs a
fresh storage read. -/
theorem storage_read_once_amended (stor : Option JsNum) (n : Nat)
    (st : Proc1) (h : st.globalRate = none) :
    (enhancesV2 n (startupV2 stor)).readCount = 1 ∧
    (enhancesV2 n (startupV2 stor)).initialRate = loadRate stor ∧
    loadRate none = 1 ∧
    loadRate (some JsNum.nan) = 1 ∧
    (enhanceV1 st).readCount = st.readCount + 1 := by
  obtain ⟨hc, hi, _⟩ := enhancesV2_preserves n (startupV2 stor)
  refine ⟨?_, ?_, ?_, rfl, ?_⟩
  · rw [hc]; rfl
  · rw [hi]; rfl
  · show clampQ 1 = 1
    norm_num [clampQ, MIN_RATE, MAX_RATE]
  · simp [enhanceV1, h]

/-- C7 amended witness: with an absent stored value, two revision-2 player
setups leave the read count at 1 and the startup value intact, while one
revision-1 setup with no override adds a storage read. -/
theorem storage_read_once_amended_witness :
    (startupV1 none).globalRate = none ∧
    ((enhancesV2 2 (startupV2 none)).readCount = 1 ∧
     (enhancesV2 2 (startupV2 none)).initialRate = loadRate none ∧
     loadRate none = 1 ∧
     loadRate (some JsNum.nan) = 1 ∧
     (enhanceV1 (startupV1 none)).readCount = (startupV1 none).readCount + 1) :=
  ⟨rfl, storage_read_once_amended none 2 (startupV1 none) rfl⟩

/-- C8: toggling reverse on (anchoring `reverseStartOffset` and the context
time) and then off with `commitTime = true` at the same rate sets the
forward position to `max(0, reverseStartOffset − (t1 − t0)·rate)`; when the
toggle-off is immediate (`t1 = t0`) the committed position is exactly
`reverseStartOffset`. -/
theorem reverse_roundtrip_commit (ct dur t0 t1 r : ℚ)
    (hdur : 0 < dur) (hr : r ≠ 0) :
    commitPosition (toggleOnTiming ct dur t0) t1 r
      = max 0 ((if 0 < ct then ct else dur) - (t1 - t0) * r) ∧
    (t1 = t0 → commitPosition (toggleOnTiming ct dur t0) t1 r
      = (if 0 < ct then ct else dur)) := by
  have hj : jsOrQ r 1 = r := if_neg hr
  constructor
  · simp [commitPosition, toggleOnTiming, hj]
  · intro h
    subst h
    simp only [commitPosition, toggleOnTiming, hj, sub_self, zero_mul, sub_zero]
    by_cases hc : 0 < ct
    · rw [if_pos hc]
      exact max_eq_right (le_of_lt hc)
    · rw [if_neg hc]
      exact max_eq_right (le_of_lt hdur)

/-- C8 witness: forward position 2, duration 10, anchor time 0, immediate
toggle-off (`t1 = 0`) at rate 1 recommits exactly position 2. -/
theorem reverse_roundtrip_commit_witness :
    (0:ℚ) < 10 ∧ (1:ℚ) ≠ 0 ∧
    (commitPosition (toggleOnTiming 2 10 0) 0 1
        = max 0 ((if (0:ℚ) < 2 then 2 else 10) - (0 - 0) * 1) ∧
     ((0:ℚ) = 0 → commitPosition (toggleOnTiming 2 10 0) 0 1
        = (if (0:ℚ) < 2 then 2 else 10))) :=
  ⟨by norm_num, by norm_num,
    reverse_roundtrip_commit 2 10 0 0 1 (by norm_num) (by norm_num)⟩

end FS

